import Mathlib

/-!
Verification of the POS ingestion-and-analytics core of this repository.

The development shallowly embeds:
* `functions/src/importSalesXlsx.ts` — the spreadsheet ingestion pipeline
  (both iterations present in the source file: the current one using
  `MAX_BATCH_OPS`/`commitBatch`, and the earlier one using the
  `rowCount % 400` commit rhythm);
* `pos-dashboard-backend/db/schema.sql` — the `pos_sales` table and the
  `pos_sales_people` split view;
* `pos-dashboard-backend/src/server.ts` — the `/api/outliers`,
  `/api/low-margin` and `/api/summary` queries.

Machine reals (JS `number`, SQL `NUMERIC`) are modelled as exact rationals
plus an explicit NaN constructor.  SQL comparison on `NUMERIC` follows the
PostgreSQL semantics documented for the numeric types: NaN compares equal
to NaN and greater than every non-NaN value (this matters: it decides what
the `x <> x` guards in the SQL actually do).  JS number-to-string and
string-to-number conversion is modelled for the decimal forms the data
uses (optional sign, digits, optional fractional part); exponent and hex
literal forms and the `Infinity` spellings are out of scope, as is
non-ASCII case conversion.
-/

/-- JS whitespace used by `trim` and by the `\s` character class (the rare
Unicode space code points are not modelled; the data is ASCII). -/
def isJsSpace (c : Char) : Bool :=
  c = ' ' || c = '\t' || c = '\n' || c = '\r' ||
  c = Char.ofNat 11 || c = Char.ofNat 12 || c = Char.ofNat 160

/-- `String.prototype.trim`: drop leading and trailing whitespace. -/
def trimList (l : List Char) : List Char :=
  ((l.dropWhile isJsSpace).reverse.dropWhile isJsSpace).reverse

/-- JS `s.trim()` on a string value. -/
def jsTrim (s : String) : String :=
  ⟨trimList s.data⟩

/-- A JS number: NaN or a finite value (exact rational model of the float;
infinities are out of scope for this data). -/
inductive JsNum where
  | nan
  | fin (q : ℚ)
deriving DecidableEq, Repr

/-- A spreadsheet cell as produced by `sheet_to_json` with `defval: null`:
absent cells are `null`; otherwise a string, a number, or a JS `Date`
(carried as its ISO timestamp string). -/
inductive Cell where
  | null
  | str (s : String)
  | num (x : JsNum)
  | date (iso : String)
deriving DecidableEq, Repr

/-- JS `a ?? b` null-coalescing (both `undefined` and `null` are `.null`). -/
def cellCoalesce (c : Cell) (d : Cell) : Cell :=
  match c with
  | .null => d
  | c => c

/-- JS falsiness of a cell value (`!v`): null/undefined, the empty string,
`0` and `NaN` are falsy. -/
def cellFalsy (c : Cell) : Bool :=
  match c with
  | .null => true
  | .str s => s = ""
  | .num .nan => true
  | .num (.fin q) => q = 0
  | .date _ => false

/-- Digits of a decimal literal folded to a natural number. -/
def digitsToNat (l : List Char) : Nat :=
  l.foldl (fun acc c => acc * 10 + (c.toNat - '0'.toNat)) 0

/-- Parse an unsigned decimal literal (`12`, `12.5`, `.5`, `12.`);
anything else is not a number. -/
def parseUnsignedDec (l : List Char) : Option ℚ :=
  let ip := l.takeWhile Char.isDigit
  let rest := l.dropWhile Char.isDigit
  match rest with
  | [] => if ip = [] then none else some (digitsToNat ip)
  | '.' :: fr =>
    let fp := fr.takeWhile Char.isDigit
    let rest2 := fr.dropWhile Char.isDigit
    if rest2 ≠ [] then none
    else if ip = [] ∧ fp = [] then none
    else some ((digitsToNat ip : ℚ) + (digitsToNat fp : ℚ) / ((10 : ℚ) ^ fp.length))
  | _ => none

/-- JS `Number(string)`: trim; empty string is `0`; an optional sign and a
decimal literal; anything else is NaN. -/
def jsParseNumber (s : String) : JsNum :=
  match trimList s.data with
  | [] => .fin 0
  | '-' :: r => match parseUnsignedDec r with
    | some q => .fin (-q)
    | none => .nan
  | '+' :: r => match parseUnsignedDec r with
    | some q => .fin q
    | none => .nan
  | l => match parseUnsignedDec l with
    | some q => .fin q
    | none => .nan

/-- JS `String(n)` for a number, for the integral values this data uses
(exact float formatting of fractional values is out of scope). -/
def jsNumToString (x : JsNum) : String :=
  match x with
  | .nan => "NaN"
  | .fin q => if q.den = 1 then toString q.num else toString q

/-- JS `v.toString()` / `String(v)` on a cell (never reached on `null` in
the source, which coalesces first). -/
def cellToString (c : Cell) : String :=
  match c with
  | .null => "null"
  | .str s => s
  | .num x => jsNumToString x
  | .date iso => iso

/-- JS `Number(v)` on a cell. -/
def cellToNumber (c : Cell) : JsNum :=
  match c with
  | .null => .fin 0
  | .str s => jsParseNumber s
  | .num x => x
  | .date _ => .nan

/-- `Number(cell ?? 0) || 0` — the monetary-field coercion of the importer:
missing, null and non-numeric cells (NaN coercions included) become `0`. -/
def coerceMoney (c : Cell) : ℚ :=
  match cellToNumber (cellCoalesce c (.num (.fin 0))) with
  | .nan => 0
  | .fin q => q

/-- `toSafeDocId`: Firestore doc IDs cannot contain `/`; every `/` becomes
`-`. -/
def toSafeDocId (id : String) : String :=
  ⟨id.data.map (fun c => if c = '/' then '-' else c)⟩

/-- `replace(/[\s-]+/g, "-")`: each maximal run of whitespace/hyphen
characters becomes a single hyphen.  The boolean records whether the
previous character belonged to the current run. -/
def collapseGo (inRun : Bool) : List Char → List Char
  | [] => []
  | c :: cs =>
    if isJsSpace c || c = '-' then
      if inRun then collapseGo true cs else '-' :: collapseGo true cs
    else c :: collapseGo false cs

def collapseRuns (l : List Char) : List Char :=
  collapseGo false l

/-- `replace(/(^-|-$)/g, "")`: the regex removes one leading and one
trailing hyphen (a single character each). -/
def stripEdgeHyphens (l : List Char) : List Char :=
  let l1 := match l with
    | '-' :: r => r
    | _ => l
  match l1.reverse with
  | '-' :: r => r.reverse
  | _ => l1

/-- `slugify` from `importSalesXlsx.ts`: lower-case, trim, `&`→`and`,
strip characters outside `[a-z0-9\s-]`, collapse whitespace/hyphen runs to
a single hyphen, strip edge hyphens. -/
def slugify (s : String) : String :=
  if s = "" then "" else
  let l0 := (trimList (s.data.map Char.toLower))
  let l1 := l0.flatMap (fun c => if c = '&' then ['a', 'n', 'd'] else [c])
  let l2 := l1.filter (fun c =>
    (('a' ≤ c ∧ c ≤ 'z') : Bool) || (('0' ≤ c ∧ c ≤ '9') : Bool) ||
    isJsSpace c || c = '-')
  ⟨stripEdgeHyphens (collapseRuns l2)⟩

/-- Greedy match of `^(\d{1,2})\/(\d{1,2})\/(\d{4})$` returning the three
captured groups.  Greedy digit runs are equivalent to the regex here
because a failed run can only backtrack onto another digit, never onto
`/` or the end of the string. -/
def matchMMDDYYYY (s : String) : Option (List Char × List Char × List Char) :=
  let l := s.data
  let mm := l.takeWhile Char.isDigit
  let r1 := l.dropWhile Char.isDigit
  if mm.length < 1 ∨ 2 < mm.length then none else
  match r1 with
  | '/' :: r2 =>
    let dd := r2.takeWhile Char.isDigit
    let r3 := r2.dropWhile Char.isDigit
    if dd.length < 1 ∨ 2 < dd.length then none else
    match r3 with
    | '/' :: r4 =>
      let yyyy := r4.takeWhile Char.isDigit
      let r5 := r4.dropWhile Char.isDigit
      if yyyy.length = 4 ∧ r5 = [] then some (mm, dd, yyyy) else none
    | _ => none
  | _ => none

/-- JS `padStart(2, "0")` on a (nonempty) captured group. -/
def padStart2 (l : List Char) : List Char :=
  if l.length ≥ 2 then l else '0' :: l

/-- `ymdFromExcelDate` from `importSalesXlsx.ts`: falsy values are
rejected; a `Date` yields the first 10 chars of its ISO string; otherwise
the trimmed string must match `MM/DD/YYYY` (1–2 digit month/day, 4-digit
year) and is reassembled zero-padded as `YYYY-MM-DD`. -/
def ymdFromExcelDate (v : Cell) : Option String :=
  if cellFalsy v then none else
  match v with
  | .date iso => some ⟨iso.data.take 10⟩
  | v =>
    match matchMMDDYYYY (jsTrim (cellToString v)) with
    | none => none
    | some (mm, dd, yyyy) =>
      some ⟨yyyy ++ '-' :: padStart2 mm ++ '-' :: padStart2 dd⟩

/-! ## SQL value model (PostgreSQL `NUMERIC`) -/

/-- A non-null SQL `NUMERIC` value: NaN or a finite value (numeric is
arbitrary precision, modelled exactly as a rational). -/
inductive SqlNum where
  | nan
  | fin (q : ℚ)
deriving DecidableEq, Repr

/-- PostgreSQL `=` on `NUMERIC`.  Per the PostgreSQL numeric-type
documentation, NaN is treated as equal to NaN (so that values sort). -/
def sqlEqNum : SqlNum → SqlNum → Bool
  | .nan, .nan => true
  | .fin a, .fin b => a == b
  | _, _ => false

/-- PostgreSQL `<>` on `NUMERIC`. -/
def sqlNeNum (a b : SqlNum) : Bool := !(sqlEqNum a b)

/-- PostgreSQL `<` on `NUMERIC`: NaN is greater than every non-NaN value. -/
def sqlLtNum : SqlNum → SqlNum → Bool
  | .nan, _ => false
  | .fin _, .nan => true
  | .fin a, .fin b => a < b

/-- PostgreSQL `<=` on `NUMERIC`. -/
def sqlLeNum (a b : SqlNum) : Bool := sqlLtNum a b || sqlEqNum a b

def sqlAdd : SqlNum → SqlNum → SqlNum
  | .nan, _ => .nan
  | _, .nan => .nan
  | .fin a, .fin b => .fin (a + b)

def sqlSub : SqlNum → SqlNum → SqlNum
  | .nan, _ => .nan
  | _, .nan => .nan
  | .fin a, .fin b => .fin (a - b)

def sqlMul : SqlNum → SqlNum → SqlNum
  | .nan, _ => .nan
  | _, .nan => .nan
  | .fin a, .fin b => .fin (a * b)

/-- The `CASE WHEN x IS NULL OR x <> x THEN 0 ELSE x END` coercion used by
the `SAFE_*` fragments in `server.ts` and by the `base` CTE of the
`pos_sales_people` view. -/
def safeNum (x : Option SqlNum) : SqlNum :=
  match x with
  | none => .fin 0
  | some v => if sqlNeNum v v then .fin 0 else v

/-- SQL `SUM` over a nullable column: NULLs are ignored, the empty sum is
NULL. -/
def sqlSumOpt (l : List (Option SqlNum)) : Option SqlNum :=
  l.foldl (fun acc x =>
    match x with
    | none => acc
    | some v =>
      match acc with
      | none => some v
      | some a => some (sqlAdd a v)) none

/-- PostgreSQL `round(x, 2)` on `NUMERIC`: half away from zero. -/
def sqlRound2 : SqlNum → SqlNum
  | .nan => .nan
  | .fin q =>
    .fin ((((if 0 ≤ q * 100 then ⌊q * 100 + 1/2⌋ else -⌊(1:ℚ)/2 - q * 100⌋) : ℤ) : ℚ) / 100)

/-! ## The `pos_sales` table and the `pos_sales_people` split view -/

/-- A row of the `pos_sales` table (the columns the embedded queries
touch; dates are modelled as day indices, which preserves the order
semantics `DATE` comparison gives them). -/
structure PosSale where
  sale_id : String
  sale_date : Nat
  salesperson : Option String
  location : Option String
  receipt_no : Option String
  customer_name : Option String
  grand_total : Option SqlNum
  profit : Option SqlNum
  total_finance_amt : Option SqlNum
  finance_fee : Option SqlNum
  finance_balance : Option SqlNum
  gross_margin : Option SqlNum
  raw_source_file : Option String
deriving DecidableEq, Repr

/-- Attempt to match `\s*&\s*` at the head of the list; on success return
what follows the match. -/
def matchAmp (l : List Char) : Option (List Char) :=
  match l.dropWhile isJsSpace with
  | '&' :: r => some (r.dropWhile isJsSpace)
  | _ => none

/-- `regexp_replace(s, '\s*&\s*', ' and ', 'g')`: left-to-right scan,
non-overlapping matches.  The fuel argument only bounds the recursion
(every step consumes at least one character, so `l.length + 1` steps
always suffice); the fuel-exhausted branch is unreachable. -/
def replaceAmpGo : Nat → List Char → List Char
  | 0, l => l
  | _ + 1, [] => []
  | fuel + 1, c :: cs =>
    match matchAmp (c :: cs) with
    | some rest => ' ' :: 'a' :: 'n' :: 'd' :: ' ' :: replaceAmpGo fuel rest
    | none => c :: replaceAmpGo fuel cs

def replaceAmp (l : List Char) : List Char :=
  replaceAmpGo (l.length + 1) l

/-- Attempt to match `\s+and\s+` case-insensitively at the head of the
list; on success return what follows the match (POSIX longest match:
maximal whitespace runs on both sides). -/
def matchAndSep (l : List Char) : Option (List Char) :=
  let r1 := l.dropWhile isJsSpace
  if (l.takeWhile isJsSpace).isEmpty then none else
  match r1 with
  | a :: n :: d :: r2 =>
    if a.toLower = 'a' && n.toLower = 'n' && d.toLower = 'd' then
      if (r2.takeWhile isJsSpace).isEmpty then none
      else some (r2.dropWhile isJsSpace)
    else none
  | _ => none

/-- `regexp_split_to_array(s, '\s+and\s+', 'i')`: split on every
separator occurrence, keeping empty pieces (PostgreSQL keeps them; the
view turns them into NULL salespeople later, but they still count).
Fuel as in `replaceAmpGo`. -/
def splitAndGo : Nat → List Char → List Char → List (List Char)
  | 0, acc, l => [acc.reverse ++ l]
  | _ + 1, acc, [] => [acc.reverse]
  | fuel + 1, acc, c :: cs =>
    match matchAndSep (c :: cs) with
    | some rest => acc.reverse :: splitAndGo fuel [] rest
    | none => splitAndGo fuel (c :: acc) cs

def splitAndCI (l : List Char) : List (List Char) :=
  splitAndGo (l.length + 1) [] l

/-- The `people` array of the view's `base` CTE:
`regexp_split_to_array(regexp_replace(COALESCE(salesperson, ''),
'\s*&\s*', ' and ', 'g'), '\s+and\s+', 'i')`. -/
def sqlPeople (sp : Option String) : List (List Char) :=
  splitAndCI (replaceAmp (sp.getD "").data)

/-- A row of the `pos_sales_people` view. -/
structure SplitRow where
  sale_id : String
  sale_date : Nat
  location : Option String
  salesperson : Option String
  grand_total_split : Option SqlNum
  profit_split : Option SqlNum
  total_finance_amt_split : Option SqlNum
  finance_fee_split : Option SqlNum
  finance_balance_split : Option SqlNum
deriving DecidableEq, Repr

/-- `NULLIF(n, 0)`. -/
def nullifZero (n : Nat) : Option Nat :=
  if n = 0 then none else some n

/-- `x / NULLIF(people_count, 0)`: NULL divisor gives NULL, otherwise
exact `NUMERIC` division (NaN propagates). -/
def sqlDivByCount (x : SqlNum) (d : Option Nat) : Option SqlNum :=
  match d with
  | none => none
  | some n =>
    some (match x with
      | .nan => .nan
      | .fin q => .fin (q / (n : ℚ)))

/-- The `pos_sales_people` view applied to one `pos_sales` row: the
`base`/`expanded` CTEs and the final SELECT of `schema.sql`. -/
def posSalesPeople (t : PosSale) : List SplitRow :=
  let people := sqlPeople t.salesperson
  let n := people.length
  people.map (fun p =>
    { sale_id := t.sale_id
      sale_date := t.sale_date
      location := t.location
      salesperson := if trimList p = [] then none else some ⟨trimList p⟩
      grand_total_split := sqlDivByCount (safeNum t.grand_total) (nullifZero n)
      profit_split := sqlDivByCount (safeNum t.profit) (nullifZero n)
      total_finance_amt_split := sqlDivByCount (safeNum t.total_finance_amt) (nullifZero n)
      finance_fee_split := sqlDivByCount (safeNum t.finance_fee) (nullifZero n)
      finance_balance_split := sqlDivByCount (safeNum t.finance_balance) (nullifZero n) })

/-- The whole view over a table. -/
def posSalesPeopleTable (tbl : List PosSale) : List SplitRow :=
  tbl.flatMap posSalesPeople

/-! ## The ingestion pipeline of `importSalesXlsx.ts` (current iteration) -/

/-- JS `salesPersonString.split(" AND ")`: split on every occurrence of
the exact, case-sensitive five-character separator. -/
def splitANDGo (acc : List Char) : List Char → List (List Char)
  | ' ' :: 'A' :: 'N' :: 'D' :: ' ' :: rest => acc.reverse :: splitANDGo [] rest
  | c :: cs => splitANDGo (c :: acc) cs
  | [] => [acc.reverse]

/-- `salesPersonString.split(" AND ").map((name) => name.trim())`. -/
def tsSplitSalespeople (s : String) : List String :=
  (splitANDGo [] s.data).map (fun l => jsTrim ⟨l⟩)

/-- One parsed spreadsheet row, keyed by the recognized headers. -/
structure XlsxRow where
  dateOfSale : Cell
  salesLocation : Cell
  salesPerson : Cell
  salesId : Cell
  grandTotal : Cell
  cost : Cell
  financeFee : Cell
  profit : Cell
deriving DecidableEq, Repr

/-- The validated fields of one accepted row (lines 125–133 of the
importer; rows failing the checks are skipped). -/
structure NormRow where
  dateOfSale : String
  storeLocation : String
  salesPersonString : String
  salesId : String
deriving DecidableEq, Repr

/-- Row normalization: date via `ymdFromExcelDate`, the three string
fields coalesced and trimmed, then the JS-falsy check
`!dateOfSale || !storeLocation || !salesId` skips the row. -/
def normalizeRow (r : XlsxRow) : Option NormRow :=
  let dateOfSale := ymdFromExcelDate r.dateOfSale
  let storeLocation := jsTrim (cellToString (cellCoalesce r.salesLocation (.str "")))
  let salesPersonString := jsTrim (cellToString (cellCoalesce r.salesPerson (.str "Unassigned")))
  let salesId := jsTrim (cellToString (cellCoalesce r.salesId (.str "")))
  match dateOfSale with
  | none => none
  | some d =>
    if d = "" ∨ storeLocation = "" ∨ salesId = "" then none
    else some { dateOfSale := d, storeLocation := storeLocation,
                salesPersonString := salesPersonString, salesId := salesId }

/-- The document written to `sales_transactions/{safeSalesId}`
(`sourceFile` and the server timestamp are environment data and carry no
row information). -/
structure TxRecord where
  salesId : String
  date : String
  storeId : String
  storeName : String
  salespeople : List String
  grandTotal : ℚ
  cost : ℚ
  financeFee : ℚ
  profit : ℚ
deriving DecidableEq, Repr

/-- The transaction document built for one accepted row. -/
def mkRecord (r : XlsxRow) (nr : NormRow) (storeId : String) : TxRecord :=
  { salesId := nr.salesId
    date := nr.dateOfSale
    storeId := storeId
    storeName := nr.storeLocation
    salespeople := tsSplitSalespeople nr.salesPersonString
    grandTotal := coerceMoney r.grandTotal
    cost := coerceMoney r.cost
    financeFee := coerceMoney r.financeFee
    profit := coerceMoney r.profit }

/-- A Firestore batch write operation queued by the importer. -/
inductive WriteOp where
  | setStore (storeId : String) (name : String)
  | setTx (docId : String) (rec : TxRecord)
deriving DecidableEq, Repr

def MAX_BATCH_OPS : Nat := 450

/-- The mutable state of one run of the current importer. -/
structure ImportState where
  batch : List WriteOp
  batchOps : Nat
  committed : List (List WriteOp)
  seenStores : List String
  rowCount : Nat
  validRowCount : Nat
  skippedRowCount : Nat
  totalWrites : Nat
deriving DecidableEq, Repr

def initState : ImportState :=
  { batch := [], batchOps := 0, committed := [], seenStores := []
    rowCount := 0, validRowCount := 0, skippedRowCount := 0, totalWrites := 0 }

/-- `commitBatch`: a no-op when the batch is empty, otherwise commit and
start a new batch. -/
def commitBatch (st : ImportState) : ImportState :=
  if st.batchOps = 0 then st
  else { st with committed := st.committed ++ [st.batch]
                 totalWrites := st.totalWrites + st.batchOps
                 batch := [], batchOps := 0 }

/-- The body of the row loop (lines 123–172): normalize, upsert the store
once per run, queue the transaction upsert under the `/`-sanitized doc
id, and flush when the batch has reached `MAX_BATCH_OPS`. -/
def processRow (st : ImportState) (r : XlsxRow) : ImportState :=
  let st := { st with rowCount := st.rowCount + 1 }
  match normalizeRow r with
  | none => { st with skippedRowCount := st.skippedRowCount + 1 }
  | some nr =>
    let st := { st with validRowCount := st.validRowCount + 1 }
    let storeId := slugify nr.storeLocation
    let st :=
      if storeId ≠ "" ∧ storeId ∉ st.seenStores then
        { st with batch := st.batch ++ [.setStore storeId nr.storeLocation]
                  seenStores := st.seenStores ++ [storeId]
                  batchOps := st.batchOps + 1 }
      else st
    let safeSalesId := toSafeDocId nr.salesId
    let st := { st with batch := st.batch ++ [.setTx safeSalesId (mkRecord r nr storeId)]
                        batchOps := st.batchOps + 1 }
    if st.batchOps ≥ MAX_BATCH_OPS then commitBatch st else st

/-- One whole run: the row loop followed by the unconditional final
`commitBatch("final")`. -/
def runImportV1 (rows : List XlsxRow) : ImportState :=
  commitBatch (rows.foldl processRow initState)

/-- Firestore `batch.set` without merge on `sales_transactions`: create
or fully replace the document with that id. -/
def applyOp (db : List (String × TxRecord)) (op : WriteOp) : List (String × TxRecord) :=
  match op with
  | .setStore _ _ => db
  | .setTx id rec =>
    if db.any (fun p => p.1 = id) then
      db.map (fun p => if p.1 = id then (id, rec) else p)
    else db ++ [(id, rec)]

/-- Apply the committed batches, in commit order, to the
`sales_transactions` collection. -/
def importIntoDb (db : List (String × TxRecord)) (rows : List XlsxRow) :
    List (String × TxRecord) :=
  (runImportV1 rows).committed.foldl (fun d b => b.foldl applyOp d) db

def lookupTx (db : List (String × TxRecord)) (id : String) : Option TxRecord :=
  (db.find? (fun p => p.1 = id)).map (fun p => p.2)

/-! ## The earlier importer iteration (second document in the source
file): commits every 400th row and conditionally at end of file. -/

/-- The transaction document of the earlier iteration (it has no
`salesId` field and writes under the raw sales id). -/
structure TxRecordV2 where
  date : String
  storeId : String
  storeName : String
  salespeople : List String
  grandTotal : ℚ
  cost : ℚ
  financeFee : ℚ
  profit : ℚ
deriving DecidableEq, Repr

inductive WriteOpV2 where
  | setStore (storeId : String) (name : String)
  | setTx (docId : String) (rec : TxRecordV2)
deriving DecidableEq, Repr

structure ImportStateV2 where
  batch : List WriteOpV2
  committed : List (List WriteOpV2)
  seenStores : List String
  rowCount : Nat
deriving DecidableEq, Repr

def initStateV2 : ImportStateV2 :=
  { batch := [], committed := [], seenStores := [], rowCount := 0 }

/-- The row loop of the earlier iteration: `rowCount` counts every row
(skipped ones included), but the `rowCount % 400 === 0` commit check is
only reached by accepted rows. -/
def processRowV2 (st : ImportStateV2) (r : XlsxRow) : ImportStateV2 :=
  let st := { st with rowCount := st.rowCount + 1 }
  match normalizeRow r with
  | none => st
  | some nr =>
    let storeId := slugify nr.storeLocation
    let st :=
      if storeId ≠ "" ∧ storeId ∉ st.seenStores then
        { st with batch := st.batch ++ [.setStore storeId nr.storeLocation]
                  seenStores := st.seenStores ++ [storeId] }
      else st
    let rec0 : TxRecordV2 :=
      { date := nr.dateOfSale, storeId := storeId, storeName := nr.storeLocation
        salespeople := tsSplitSalespeople nr.salesPersonString
        grandTotal := coerceMoney r.grandTotal, cost := coerceMoney r.cost
        financeFee := coerceMoney r.financeFee, profit := coerceMoney r.profit }
    let st := { st with batch := st.batch ++ [.setTx nr.salesId rec0] }
    if st.rowCount % 400 = 0 then
      { st with committed := st.committed ++ [st.batch], batch := [] }
    else st

/-- One whole run of the earlier iteration: the final commit is guarded
by `rowCount % 400 !== 0`; whatever remains in `batch` afterwards was
never committed. -/
def runImportV2 (rows : List XlsxRow) : ImportStateV2 :=
  let st := rows.foldl processRowV2 initStateV2
  if st.rowCount % 400 ≠ 0 then
    { st with committed := st.committed ++ [st.batch], batch := [] }
  else st

/-! ## `server.ts` analytics queries -/

/-- `ILIKE '%' || q || '%'`: case-insensitive substring containment (the
filter string comes from `parseTextParam`, which trims; wildcard
characters inside the filter are not modelled — the spec defines the
filter as a substring match). -/
def containsSub (needle : List Char) : List Char → Bool
  | [] => needle.isEmpty
  | c :: t => needle.isPrefixOf (c :: t) || containsSub needle t

def ciContains (hay needle : String) : Bool :=
  containsSub (needle.data.map Char.toLower) (hay.data.map Char.toLower)

/-- `($k::text IS NULL OR salesperson ILIKE '%' || $k || '%')`: a NULL
salesperson fails the ILIKE (NULL is not true). -/
def filterMatch (filt : Option String) (sp : Option String) : Bool :=
  match filt with
  | none => true
  | some q =>
    match sp with
    | none => false
    | some s => ciContains s q

/-- A row of the `s` CTE of `/api/outliers` (all `SAFE_*` coercions
applied, so the numeric columns are non-null). -/
structure SRow where
  sale_id : String
  sale_date : Nat
  salesperson : Option String
  location : Option String
  receipt_no : Option String
  customer_name : Option String
  grand_total : SqlNum
  profit : SqlNum
  total_finance_amt : SqlNum
  finance_balance : SqlNum
  finance_fee : SqlNum
  raw_source_file : Option String
deriving DecidableEq, Repr

/-- The `s` CTE of `/api/outliers`: date-range and salesperson filter,
then the `SAFE_*` coercions. -/
def outlierS (tbl : List PosSale) (start end_ : Nat) (filt : Option String) : List SRow :=
  (tbl.filter (fun t =>
      decide (start ≤ t.sale_date) && decide (t.sale_date < end_) &&
      filterMatch filt t.salesperson)).map (fun t =>
    { sale_id := t.sale_id
      sale_date := t.sale_date
      salesperson := t.salesperson
      location := t.location
      receipt_no := t.receipt_no
      customer_name := t.customer_name
      grand_total := safeNum t.grand_total
      profit := safeNum t.profit
      total_finance_amt := safeNum t.total_finance_amt
      finance_balance := safeNum t.finance_balance
      finance_fee := safeNum t.finance_fee
      raw_source_file := t.raw_source_file })

/-- Scale a `NUMERIC` by a constant (NaN propagates). -/
def sqlScale (c : ℚ) : SqlNum → SqlNum
  | .nan => .nan
  | .fin q => .fin (c * q)

/-- SQL arithmetic on nullable values: NULL propagates. -/
def optAdd (a b : Option SqlNum) : Option SqlNum :=
  match a, b with
  | some x, some y => some (sqlAdd x y)
  | _, _ => none

def optSub (a b : Option SqlNum) : Option SqlNum :=
  match a, b with
  | some x, some y => some (sqlSub x y)
  | _, _ => none

def optScale (c : ℚ) (a : Option SqlNum) : Option SqlNum :=
  a.map (sqlScale c)

/-- `percentile_cont(p) WITHIN GROUP (ORDER BY v)`: continuous
interpolation at rank `p * (n - 1)` over the sorted values; NULL on an
empty group.  Sorting follows the PostgreSQL `NUMERIC` order (NaN
greatest). -/
def percentileCont (p : ℚ) (l : List SqlNum) : Option SqlNum :=
  if l = [] then none else
  let sorted := List.insertionSort (fun a b => sqlLeNum a b = true) l
  let h := p * ((l.length : ℚ) - 1)
  let lo := (⌊h⌋).toNat
  let frac := h - (⌊h⌋ : ℚ)
  let vlo := sorted.getD lo (.fin 0)
  if frac = 0 then some vlo
  else some (sqlAdd vlo (sqlScale frac (sqlSub (sorted.getD (lo + 1) (.fin 0)) vlo)))

/-- The `hi` bound of the `bounds` CTE:
`q3 + (multiplier * (q3 - q1))` (NULL when the range is empty). -/
def outlierHi (s : List SRow) (mult : ℚ) : Option SqlNum :=
  let q1 := percentileCont (1/4) (s.map (fun r => r.grand_total))
  let q3 := percentileCont (3/4) (s.map (fun r => r.grand_total))
  optAdd q3 (optScale mult (optSub q3 q1))

/-- `s.grand_total > b.hi` (a NULL bound is never exceeded). -/
def sqlGtOpt (x : SqlNum) (hi : Option SqlNum) : Bool :=
  match hi with
  | none => false
  | some h => sqlLtNum h x

/-- The `flagged` CTE before ORDER BY/LIMIT:
`WHERE b.n >= 20 AND s.grand_total > b.hi`. -/
def outlierFlagged (s : List SRow) (mult : ℚ) : List SRow :=
  s.filter (fun r => decide (20 ≤ s.length) && sqlGtOpt r.grand_total (outlierHi s mult))

structure OutliersResult where
  rows : List SRow
  threshold_high : Option SqlNum
  total_count : Nat
deriving Repr

/-- `/api/outliers`: effective limit `Math.min(Number(req.query.limit ||
25), 200)`; the flagged rows sorted descending by `grand_total`, capped
at the limit; `threshold_high` and `total_count` are read off the first
returned row (`null`/`0` when no row is returned). -/
def outliersQuery (tbl : List PosSale) (start end_ : Nat) (limitParam : Option Nat)
    (filt : Option String) (mult : ℚ) : OutliersResult :=
  let limit := min (limitParam.getD 25) 200
  let s := outlierS tbl start end_ filt
  let flaggedAll := outlierFlagged s mult
  let page := (List.insertionSort
    (fun a b : SRow => sqlLeNum b.grand_total a.grand_total = true) flaggedAll).take limit
  { rows := page
    threshold_high := if page = [] then none else outlierHi s mult
    total_count := if page = [] then 0 else flaggedAll.length }

/-- A row of the `s` CTE of `/api/low-margin` (after its CASE
coercions). -/
structure LMRow where
  sale_id : String
  sale_date : Nat
  salesperson : Option String
  location : Option String
  receipt_no : Option String
  customer_name : Option String
  grand_total : Option SqlNum
  profit : SqlNum
  margin_pct : Option SqlNum
  total_finance_amt : SqlNum
  finance_balance : SqlNum
  finance_fee : SqlNum
  raw_source_file : Option String
deriving DecidableEq, Repr

/-- `NUMERIC` division (only reached under a non-zero guard in the
query; NaN propagates). -/
def sqlDivNum : SqlNum → SqlNum → SqlNum
  | .nan, _ => .nan
  | _, .nan => .nan
  | .fin a, .fin b => .fin (a / b)

/-- The `margin_pct` CASE of `/api/low-margin`, verbatim:
stored `gross_margin` when non-null and equal to itself; NULL when the
split grand total is null, zero or not equal to itself; otherwise the
NaN-coerced split profit over the split grand total, times 100. -/
def marginPctExpr (gm gts ps : Option SqlNum) : Option SqlNum :=
  if (match gm with | some g => sqlEqNum g g | none => false) then gm
  else if (match gts with
           | none => true
           | some g => sqlEqNum g (.fin 0) || sqlNeNum g g) then none
  else
    match gts with
    | some g => some (sqlMul (sqlDivNum (safeNum ps) g) (.fin 100))
    | none => none

/-- The `s` CTE of `/api/low-margin`: the split view joined back to
`pos_sales` on the primary key `sale_id` (each view row joins its
originating row), filtered to the range, to non-null, non-empty,
non-sentinel salespeople and to the optional substring filter. -/
def lowMarginS (tbl : List PosSale) (start end_ : Nat) (filt : Option String) : List LMRow :=
  tbl.flatMap (fun t =>
    (posSalesPeople t).filterMap (fun p =>
      match p.salesperson with
      | none => none
      | some sp =>
        if decide (start ≤ p.sale_date) && decide (p.sale_date < end_) &&
           decide (sp ≠ "") && decide (sp ≠ "Sales, Store") &&
           filterMatch filt (some sp) then
          some { sale_id := p.sale_id
                 sale_date := p.sale_date
                 salesperson := some sp
                 location := p.location.orElse (fun _ => t.location)
                 receipt_no := t.receipt_no
                 customer_name := t.customer_name
                 grand_total := p.grand_total_split
                 profit := safeNum p.profit_split
                 margin_pct := marginPctExpr t.gross_margin p.grand_total_split p.profit_split
                 total_finance_amt := safeNum p.total_finance_amt_split
                 finance_balance := safeNum p.finance_balance_split
                 finance_fee := safeNum p.finance_fee_split
                 raw_source_file := t.raw_source_file }
        else none))

/-- `margin_pct BETWEEN -100 AND 100` (NULL is not between). -/
def betweenFilter (x : Option SqlNum) : Bool :=
  match x with
  | none => false
  | some m => sqlLeNum (.fin (-100)) m && sqlLeNum m (.fin 100)

/-- `ORDER BY margin_pct ASC` key (ASC defaults to NULLS LAST). -/
def marginAscLe (a b : Option SqlNum) : Bool :=
  match a, b with
  | none, none => true
  | none, some _ => false
  | some _, none => true
  | some x, some y => sqlLeNum x y

/-- Attach row numbers `k, k+1, …` to a list. -/
def numberFrom (k : Nat) : List LMRow → List (LMRow × Nat)
  | [] => []
  | r :: rs => (r, k) :: numberFrom (k + 1) rs

/-- The `ranked` CTE: keep rows with `margin_pct BETWEEN -100 AND 100`,
then `ROW_NUMBER() OVER (PARTITION BY salesperson ORDER BY margin_pct
ASC)` (ties broken by list order, one of the orders SQL permits). -/
def rankedRows (s : List LMRow) : List (LMRow × Nat) :=
  let inB := s.filter (fun r => betweenFilter r.margin_pct)
  ((inB.map (fun r => r.salesperson)).dedup).flatMap (fun sp =>
    numberFrom 1 (List.insertionSort
      (fun a b : LMRow => marginAscLe a.margin_pct b.margin_pct = true)
      (inB.filter (fun r => r.salesperson = sp))))

/-- `ORDER BY margin_pct ASC NULLS LAST, profit ASC, grand_total DESC`
(`DESC` defaults to NULLS FIRST). -/
def finalOrderLe (a b : LMRow) : Bool :=
  if marginAscLe a.margin_pct b.margin_pct then
    if marginAscLe b.margin_pct a.margin_pct then
      if sqlLtNum a.profit b.profit then true
      else if sqlLtNum b.profit a.profit then false
      else
        match a.grand_total, b.grand_total with
        | none, _ => true
        | some _, none => false
        | some x, some y => sqlLeNum y x
    else true
  else false

structure LMResult where
  rows : List LMRow
  total_count : Nat
deriving Repr

/-- `/api/low-margin`: `limit_per` capped at 50 (default 5), `limit_total`
capped at 2000 (default 200); rows with `rn <= limit_per` ordered by the
final sort key and capped at `limit_total`; `total_count` read off the
first returned row (`0` when no row is returned). -/
def lowMarginQuery (tbl : List PosSale) (start end_ : Nat) (filt : Option String)
    (limitPerParam limitTotalParam : Option Nat) : LMResult :=
  let limitPer := min (limitPerParam.getD 5) 50
  let limitTotal := min (limitTotalParam.getD 200) 2000
  let s := lowMarginS tbl start end_ filt
  let kept := (rankedRows s).filter (fun rr => decide (rr.2 ≤ limitPer))
  let page := ((List.insertionSort
    (fun a b : LMRow × Nat => finalOrderLe a.1 b.1 = true) kept).take limitTotal).map
      (fun rr => rr.1)
  { rows := page
    total_count := if page = [] then 0 else kept.length }

/-- `/api/summary` without a salesperson filter: line count and the
rounded sums of the `SAFE_*`-coerced `grand_total` and `profit` over the
half-open date range. -/
structure SummaryResult where
  lines : Nat
  sales : Option SqlNum
  profit : Option SqlNum
deriving DecidableEq, Repr

def summaryQuery (tbl : List PosSale) (start end_ : Nat) : SummaryResult :=
  let inRange := tbl.filter (fun t =>
    decide (start ≤ t.sale_date) && decide (t.sale_date < end_))
  { lines := inRange.length
    sales := (sqlSumOpt (inRange.map (fun t => some (safeNum t.grand_total)))).map sqlRound2
    profit := (sqlSumOpt (inRange.map (fun t => some (safeNum t.profit)))).map sqlRound2 }

/-! ## Definition following the amended low-margin description, for
comparison with the SQL CASE (refinement check) -/

/-- The amended margin rule stated directly: the stored `gross_margin`
when non-null (NaN included, since PostgreSQL `NUMERIC` NaN equals
itself); otherwise undefined when the split grand total is null or zero;
otherwise the NaN-coerced split profit over the split grand total, times
100 — division only under the non-zero guard. -/
def marginPctSpec (gm gts ps : Option SqlNum) : Option SqlNum :=
  match gm with
  | some g => some g
  | none =>
    match gts with
    | none => none
    | some g =>
      if g = .fin 0 then none
      else some (sqlMul (sqlDivNum (safeNum ps) g) (.fin 100))

/-! ## Concrete inputs used by the counterexamples and witnesses -/

/-- A row whose salesperson cell is a whitespace-only string. -/
def blankPersonRow : XlsxRow :=
  { dateOfSale := .str "1/5/2024", salesLocation := .str "Main St"
    salesPerson := .str " ", salesId := .str "1001"
    grandTotal := .null, cost := .null, financeFee := .null, profit := .null }

/-- A row whose salesperson cell is missing (null). -/
def nullPersonRow : XlsxRow :=
  { dateOfSale := .str "1/5/2024", salesLocation := .str "Main St"
    salesPerson := .null, salesId := .str "1001"
    grandTotal := .null, cost := .null, financeFee := .null, profit := .null }

/-- The previously stored transaction for sale id `1001`, dated
2023-01-01. -/
def rec2023 : TxRecord :=
  { salesId := "1001", date := "2023-01-01", storeId := "main-st"
    storeName := "Main St", salespeople := ["Unassigned"]
    grandTotal := 0, cost := 0, financeFee := 0, profit := 0 }

/-- A re-ingested row for sale id `1001`, dated 01/01/2024. -/
def row2024 : XlsxRow :=
  { dateOfSale := .str "1/1/2024", salesLocation := .str "Main St"
    salesPerson := .null, salesId := .str "1001"
    grandTotal := .null, cost := .null, financeFee := .null, profit := .null }

/-- A minimal valid row for store `a`. -/
def rowStoreA : XlsxRow :=
  { dateOfSale := .str "1/1/2024", salesLocation := .str "a"
    salesPerson := .null, salesId := .str "1"
    grandTotal := .null, cost := .null, financeFee := .null, profit := .null }

/-- A minimal valid row for store `b`. -/
def rowStoreB : XlsxRow :=
  { dateOfSale := .str "1/1/2024", salesLocation := .str "b"
    salesPerson := .null, salesId := .str "2"
    grandTotal := .null, cost := .null, financeFee := .null, profit := .null }

/-- A row missing its required date (skipped by normalization). -/
def badRow : XlsxRow :=
  { dateOfSale := .null, salesLocation := .str "a"
    salesPerson := .null, salesId := .str "3"
    grandTotal := .null, cost := .null, financeFee := .null, profit := .null }

/-- 448 rows of store `a` followed by one row of a new store `b`: after
row 448 the open batch holds 449 operations, and row 449 adds two more
before the threshold check runs. -/
def overflowRows : List XlsxRow :=
  List.replicate 448 rowStoreA ++ [rowStoreB]

/-- 400 rows of which the 400th is invalid: `rowCount` ends at 400 with
399 accepted rows still buffered, and `400 % 400 = 0` suppresses the
final commit of the earlier importer iteration. -/
def lostBatchRows : List XlsxRow :=
  List.replicate 399 rowStoreA ++ [badRow]

/-- A sale credited to two people, with finite financial fields. -/
def aliceBobSale : PosSale :=
  { sale_id := "S1", sale_date := 5, salesperson := some "Alice and Bob"
    location := some "Main St", receipt_no := none, customer_name := none
    grand_total := some (.fin 100), profit := some (.fin 20)
    total_finance_amt := some (.fin 40), finance_fee := some (.fin 6)
    finance_balance := some (.fin 10), gross_margin := none
    raw_source_file := none }

/-- A small `pos_sales` table helper. -/
def mkSaleRow (id : String) (d : Nat) (gt : ℚ) : PosSale :=
  { sale_id := id, sale_date := d, salesperson := some "X"
    location := none, receipt_no := none, customer_name := none
    grand_total := some (.fin gt), profit := some (.fin 0)
    total_finance_amt := none, finance_fee := none, finance_balance := none
    gross_margin := none, raw_source_file := none }

/-- Three in-range transactions, one of them extreme: far fewer than the
minimum sample of 20. -/
def sparseTbl : List PosSale :=
  [mkSaleRow "T1" 1 10, mkSaleRow "T2" 2 20, mkSaleRow "T3" 3 5000]

/-- A sale with `grand_total = 0` but a non-null stored `gross_margin`. -/
def zeroTotalSale : PosSale :=
  { sale_id := "S0", sale_date := 5, salesperson := some "Alice"
    location := some "Main", receipt_no := none, customer_name := none
    grand_total := some (.fin 0), profit := some (.fin 10)
    total_finance_amt := none, finance_fee := none, finance_balance := none
    gross_margin := some (.fin 50), raw_source_file := none }

/-- A legacy row carrying an un-coerced NaN `grand_total`. -/
def nanSale : PosSale :=
  { sale_id := "N1", sale_date := 5, salesperson := some "Alice"
    location := none, receipt_no := none, customer_name := none
    grand_total := some .nan, profit := some (.fin 10)
    total_finance_amt := none, finance_fee := none, finance_balance := none
    gross_margin := none, raw_source_file := none }

/-- A default row value used to state head-of-list facts. -/
def lmDefault : LMRow :=
  { sale_id := "", sale_date := 0, salesperson := none, location := none
    receipt_no := none, customer_name := none, grand_total := none
    profit := .fin 0, margin_pct := none, total_finance_amt := .fin 0
    finance_balance := .fin 0, finance_fee := .fin 0, raw_source_file := none }

/-- The store upsert queued for the first `rowStoreA` (earlier
iteration). -/
def storeOpA : WriteOpV2 := .setStore "a" "a"

/-- The transaction upsert queued for each `rowStoreA` (earlier
iteration). -/
def txA : WriteOpV2 :=
  .setTx "1" { date := "2024-01-01", storeId := "a", storeName := "a"
               salespeople := ["Unassigned"], grandTotal := 0, cost := 0
               financeFee := 0, profit := 0 }

/-- The store upsert queued for the first `rowStoreA` (current
iteration). -/
def storeOpA1 : WriteOp := .setStore "a" "a"

/-- The transaction upsert queued for each `rowStoreA` (current
iteration). -/
def txA1 : WriteOp :=
  .setTx "1" { salesId := "1", date := "2024-01-01", storeId := "a"
               storeName := "a", salespeople := ["Unassigned"]
               grandTotal := 0, cost := 0, financeFee := 0, profit := 0 }

/-! # Theorems -/

/-- C2: the claim states that "A and B", "A AND B" and "A & B" all yield
the two participants A and B *in both the ingestion pipeline and the
split view*.  The ingestion pipeline splits only on the exact,
case-sensitive separator `" AND "`, so `"A and B"` and `"A & B"` stay a
single participant there — the claim is false. -/
theorem c2_counterexample :
    tsSplitSalespeople "A and B" = ["A and B"] ∧
    tsSplitSalespeople "A & B" = ["A & B"] ∧
    ["A and B"] ≠ ["A", "B"] ∧ ["A & B"] ≠ ["A", "B"] := by decide

/-- C2 (amended): the split view normalizes `&` to `and` and splits
case-insensitively, so all three forms yield participants A and B there;
the ingestion pipeline splits only on the exact case-sensitive
`" AND "`, so only `"A AND B"` yields two participants there. -/
theorem c2_amended :
    (posSalesPeople { aliceBobSale with salesperson := some "A and B" }).map
        (fun r => r.salesperson) = [some "A", some "B"] ∧
    (posSalesPeople { aliceBobSale with salesperson := some "A AND B" }).map
        (fun r => r.salesperson) = [some "A", some "B"] ∧
    (posSalesPeople { aliceBobSale with salesperson := some "A & B" }).map
        (fun r => r.salesperson) = [some "A", some "B"] ∧
    tsSplitSalespeople "A AND B" = ["A", "B"] ∧
    tsSplitSalespeople "A and B" = ["A and B"] ∧
    tsSplitSalespeople "A & B" = ["A & B"] := by decide

/-- C3: the claim states that a blank salesperson cell — the empty or
whitespace-only string included — is stored as "Unassigned".  A
whitespace-only cell passes `?? "Unassigned"` untouched (it is not
null), trims to the empty string, and is stored as `[""]`. -/
theorem c3_counterexample :
    (normalizeRow blankPersonRow).map (fun nr => nr.salesPersonString) = some "" ∧
    (normalizeRow blankPersonRow).map (fun nr =>
      (mkRecord blankPersonRow nr (slugify nr.storeLocation)).salespeople) = some [""] ∧
    ("" : String) ≠ "Unassigned" := by decide

/-- Stepping the earlier importer with `rowStoreA` when store `a` has
already been seen and the new row count does not hit the 400 boundary:
one transaction op is appended. -/
lemma processRowV2_storeA (st : ImportStateV2)
    (h1 : st.seenStores = ["a"]) (h2 : (st.rowCount + 1) % 400 ≠ 0) :
    processRowV2 st rowStoreA =
      { st with batch := st.batch ++ [txA], rowCount := st.rowCount + 1 } := by
  have hn : normalizeRow rowStoreA =
      some { dateOfSale := "2024-01-01", storeLocation := "a"
             salesPersonString := "Unassigned", salesId := "1" } := by decide
  have hs : slugify "a" = "a" := by decide
  simp only [processRowV2, hn, hs, h1]
  have : ¬ ("a" ≠ "" ∧ "a" ∉ ["a"]) := by simp
  simp only [if_neg this, if_neg h2]
  have hrec : tsSplitSalespeople "Unassigned" = ["Unassigned"] := by decide
  have hg : coerceMoney Cell.null = 0 := by decide
  simp [txA, hrec, hg, rowStoreA]

/-- The state of the earlier importer after `k` copies of `rowStoreA`
(`1 ≤ k ≤ 399`): everything is still buffered, nothing committed. -/
lemma foldlV2_replicateA : ∀ k, 1 ≤ k → k ≤ 399 →
    (List.replicate k rowStoreA).foldl processRowV2 initStateV2 =
      { batch := storeOpA :: List.replicate k txA
        committed := [], seenStores := ["a"], rowCount := k } := by
  intro k
  induction k with
  | zero => omega
  | succ n ih =>
    intro _ hle
    by_cases h0 : n = 0
    · subst h0
      decide
    · have hn1 : 1 ≤ n := by omega
      have hn399 : n ≤ 399 := by omega
      rw [List.replicate_succ' (n := n), List.foldl_append, ih hn1 hn399]
      simp only [List.foldl_cons, List.foldl_nil]
      rw [processRowV2_storeA _ rfl (by show (n + 1) % 400 ≠ 0; omega)]
      simp [List.replicate_succ' (n := n)]

/-- C6: the earlier importer iteration guards its final commit with
`rowCount % 400 !== 0`, but `rowCount` counts skipped rows too.  On a
400-row file whose 400th row is invalid, 400 buffered operations (one
store upsert and 399 transaction upserts) are never committed, although
the code then logs "All batches committed." -/
theorem c6_lost_final_batch :
    (runImportV2 lostBatchRows).batch.length = 400 ∧
    (runImportV2 lostBatchRows).committed = [] ∧
    (runImportV2 lostBatchRows).rowCount = 400 := by
  have h399 := foldlV2_replicateA 399 (by omega) (by omega)
  have hbad : normalizeRow badRow = none := by decide
  unfold runImportV2 lostBatchRows
  rw [List.foldl_append, h399]
  simp only [List.foldl_cons, List.foldl_nil, processRowV2, hbad]
  norm_num

/-- C9: at the analytics read sites the guard `x <> x` is meant to catch
NaN, but PostgreSQL `NUMERIC` treats NaN as equal to NaN, so `x <> x` is
never true and a stored NaN flows into `SUM` — the summary for a range
containing one NaN-valued sale reports `sales = NaN`. -/
theorem c9_nan_reaches_aggregate :
    safeNum (some SqlNum.nan) = SqlNum.nan ∧
    (summaryQuery [nanSale] 0 10).sales = some SqlNum.nan ∧
    (summaryQuery [nanSale] 0 10).lines = 1 := by decide

/-- Stepping the current importer with `rowStoreA` when store `a` has
already been seen and the batch stays under the flush threshold. -/
lemma processRow_storeA (st : ImportState)
    (h1 : st.seenStores = ["a"]) (h2 : st.batchOps + 1 < MAX_BATCH_OPS) :
    processRow st rowStoreA =
      { st with batch := st.batch ++ [txA1], batchOps := st.batchOps + 1
                rowCount := st.rowCount + 1, validRowCount := st.validRowCount + 1 } := by
  have hn : normalizeRow rowStoreA =
      some { dateOfSale := "2024-01-01", storeLocation := "a"
             salesPersonString := "Unassigned", salesId := "1" } := by decide
  have hs : slugify "a" = "a" := by decide
  simp only [processRow, hn, hs, h1]
  have hseen : ¬ ("a" ≠ "" ∧ "a" ∉ ["a"]) := by simp
  simp only [if_neg hseen]
  have hth : ¬ (st.batchOps + 1 ≥ MAX_BATCH_OPS) := by omega
  simp only [ge_iff_le, if_neg hth]
  have hrec : tsSplitSalespeople "Unassigned" = ["Unassigned"] := by decide
  have hg : coerceMoney Cell.null = 0 := by decide
  simp [txA1, hrec, hg, rowStoreA, toSafeDocId, mkRecord]

/-- The state of the current importer after `k` copies of `rowStoreA`
(`1 ≤ k ≤ 448`): `k + 1` operations are buffered, nothing committed. -/
lemma foldl_replicateA : ∀ k, 1 ≤ k → k ≤ 448 →
    (List.replicate k rowStoreA).foldl processRow initState =
      { batch := storeOpA1 :: List.replicate k txA1, batchOps := k + 1
        committed := [], seenStores := ["a"], rowCount := k
        validRowCount := k, skippedRowCount := 0, totalWrites := 0 } := by
  intro k
  induction k with
  | zero => omega
  | succ n ih =>
    intro _ hle
    by_cases h0 : n = 0
    · subst h0
      decide
    · have hn1 : 1 ≤ n := by omega
      have hn448 : n ≤ 448 := by omega
      rw [List.replicate_succ' (n := n), List.foldl_append, ih hn1 hn448]
      simp only [List.foldl_cons, List.foldl_nil]
      rw [processRow_storeA _ rfl (by show n + 1 + 1 < MAX_BATCH_OPS; unfold MAX_BATCH_OPS; omega)]
      simp [List.replicate_succ' (n := n)]

set_option maxRecDepth 4000 in
/-- C5: the claim bounds every committed batch by `MAX_BATCH_OPS = 450`,
but the flush check only runs after a row's (up to two) operations are
queued: on 448 rows of one store followed by a row of a new store, the
committed batch holds 451 operations. -/
theorem c5_counterexample :
    ((runImportV1 overflowRows).committed.map List.length) = [451] ∧
    MAX_BATCH_OPS = 450 ∧ ¬ (451 ≤ MAX_BATCH_OPS) := by
  refine ⟨?_, by decide, by decide⟩
  have h448 := foldl_replicateA 448 (by omega) (by omega)
  unfold runImportV1 overflowRows
  rw [List.foldl_append, h448]
  simp only [List.foldl_cons, List.foldl_nil]
  have hnB : normalizeRow rowStoreB =
      some { dateOfSale := "2024-01-01", storeLocation := "b"
             salesPersonString := "Unassigned", salesId := "2" } := by decide
  have hsB : slugify "b" = "b" := by decide
  simp only [processRow, hnB, hsB]
  have hseen : ("b" ≠ "" ∧ "b" ∉ ["a"]) := by simp
  rw [if_pos hseen]
  have hrec : tsSplitSalespeople "Unassigned" = ["Unassigned"] := by decide
  have hg : coerceMoney Cell.null = 0 := by decide
  simp only [ge_iff_le]
  rw [if_pos (by show MAX_BATCH_OPS ≤ 448 + 1 + 1 + 1; decide)]
  simp [commitBatch, List.length_append]

/-- `commitBatch` preserves the batch-size bound: whatever batch it
pushes has the length of its operation counter. -/
lemma commitBatch_committed (st : ImportState)
    (h1 : st.batchOps = st.batch.length) (hb : st.batchOps ≤ MAX_BATCH_OPS + 1)
    (h3 : ∀ b ∈ st.committed, b.length ≤ MAX_BATCH_OPS + 1) :
    (∀ b ∈ (commitBatch st).committed, b.length ≤ MAX_BATCH_OPS + 1) ∧
    (commitBatch st).batchOps = (commitBatch st).batch.length ∧
    (commitBatch st).batchOps ≤ st.batchOps := by
  unfold commitBatch
  split
  · exact ⟨h3, h1, le_refl _⟩
  · refine ⟨?_, by simp, by simp⟩
    intro b hb2
    rcases List.mem_append.mp hb2 with h | h
    · exact h3 b h
    · rw [List.mem_singleton.mp h, ← h1]
      exact hb

/-- One row keeps the invariant: the operation counter matches the batch
length, stays strictly under `MAX_BATCH_OPS` between rows, and every
committed batch holds at most `MAX_BATCH_OPS + 1` operations. -/
lemma processRow_inv (st : ImportState) (r : XlsxRow)
    (h1 : st.batchOps = st.batch.length) (h2 : st.batchOps < MAX_BATCH_OPS)
    (h3 : ∀ b ∈ st.committed, b.length ≤ MAX_BATCH_OPS + 1) :
    (processRow st r).batchOps = (processRow st r).batch.length ∧
    (processRow st r).batchOps < MAX_BATCH_OPS ∧
    ∀ b ∈ (processRow st r).committed, b.length ≤ MAX_BATCH_OPS + 1 := by
  simp only [MAX_BATCH_OPS] at h2 h3 ⊢
  unfold processRow
  cases hn : normalizeRow r with
  | none => exact ⟨h1, h2, h3⟩
  | some nr =>
    simp only []
    split
    · -- a store upsert was queued as well as the transaction upsert
      split
      · -- threshold reached: the batch is committed
        unfold commitBatch
        rw [if_neg (by simp)]
        refine ⟨by simp, by show (0:Nat) < MAX_BATCH_OPS; decide, ?_⟩
        intro b hb
        rcases List.mem_append.mp hb with h | h
        · exact h3 b h
        · rw [List.mem_singleton.mp h]
          simp only [List.length_append, List.length_cons, List.length_nil]
          omega
      · rename_i hth
        simp only [ge_iff_le, not_le] at hth
        refine ⟨by simp [h1], ?_, h3⟩
        simpa [MAX_BATCH_OPS] using hth
    · -- only the transaction upsert was queued
      split
      · unfold commitBatch
        rw [if_neg (by simp)]
        refine ⟨by simp, by show (0:Nat) < MAX_BATCH_OPS; decide, ?_⟩
        intro b hb
        rcases List.mem_append.mp hb with h | h
        · exact h3 b h
        · rw [List.mem_singleton.mp h]
          simp only [List.length_append, List.length_cons, List.length_nil]
          omega
      · rename_i hth
        simp only [ge_iff_le, not_le] at hth
        refine ⟨by simp [h1], ?_, h3⟩
        simpa [MAX_BATCH_OPS] using hth

/-- The invariant holds after any prefix of the row loop. -/
lemma foldl_inv (rows : List XlsxRow) : ∀ st : ImportState,
    st.batchOps = st.batch.length → st.batchOps < MAX_BATCH_OPS →
    (∀ b ∈ st.committed, b.length ≤ MAX_BATCH_OPS + 1) →
    ((rows.foldl processRow st).batchOps = (rows.foldl processRow st).batch.length ∧
     (rows.foldl processRow st).batchOps < MAX_BATCH_OPS ∧
     ∀ b ∈ (rows.foldl processRow st).committed, b.length ≤ MAX_BATCH_OPS + 1) := by
  induction rows with
  | nil => intro st h1 h2 h3; exact ⟨h1, h2, h3⟩
  | cons r rs ih =>
    intro st h1 h2 h3
    simp only [List.foldl_cons]
    obtain ⟨a, b, c⟩ := processRow_inv st r h1 h2 h3
    exact ih _ a b c

/-- C5 (amended): every batch the current importer commits holds at most
`MAX_BATCH_OPS + 1 = 451` operations — the flush check runs only after a
row's up-to-two operations are queued, so a batch can exceed 450 by one
(still under Firestore's 500-operation limit), and the final flush
commits at most 449. -/
theorem c5_amended (rows : List XlsxRow) (i : Nat)
    (h : i < (runImportV1 rows).committed.length) :
    ((runImportV1 rows).committed.get ⟨i, h⟩).length ≤ MAX_BATCH_OPS + 1 := by
  obtain ⟨h1, h2, h3⟩ := foldl_inv rows initState rfl (by decide) (by intro b hb; simp [initState] at hb)
  obtain ⟨hc, _, _⟩ := commitBatch_committed _ h1 (by omega) h3
  exact hc _ (List.get_mem _ _ _)

/-- C5 witness: the single batch committed for a one-row file respects
the (amended) bound. -/
theorem c5_witness :
    ((runImportV1 [rowStoreA]).committed.get ⟨0, by decide⟩).length ≤ MAX_BATCH_OPS + 1 :=
  c5_amended [rowStoreA] 0 (by decide)

/-- C3 (amended): the "Unassigned" default applies exactly when the
salesperson cell is missing or null — `?? "Unassigned"` does not fire on
a present (even blank) string. -/
theorem c3_amended (r : XlsxRow) (nr : NormRow) (sid : String)
    (hp : r.salesPerson = Cell.null) (h : normalizeRow r = some nr) :
    nr.salesPersonString = "Unassigned" ∧
    (mkRecord r nr sid).salespeople = ["Unassigned"] := by
  unfold normalizeRow at h
  rw [hp] at h
  rcases hd : ymdFromExcelDate r.dateOfSale with _ | d
  · rw [hd] at h
    simp at h
  · rw [hd] at h
    simp only [] at h
    split at h
    · exact absurd h (by simp)
    · rw [Option.some.injEq] at h
      subst h
      constructor
      · show jsTrim (cellToString (cellCoalesce Cell.null (Cell.str "Unassigned")))
          = "Unassigned"
        decide
      · show tsSplitSalespeople
          (jsTrim (cellToString (cellCoalesce Cell.null (Cell.str "Unassigned")))) = _
        decide

/-- C3 witness: a row with a null salesperson cell normalizes to the
"Unassigned" default. -/
theorem c3_witness :
    ({ dateOfSale := "2024-01-05", storeLocation := "Main St"
       salesPersonString := "Unassigned", salesId := "1001" } : NormRow).salesPersonString
        = "Unassigned" ∧
    (mkRecord nullPersonRow
      { dateOfSale := "2024-01-05", storeLocation := "Main St"
        salesPersonString := "Unassigned", salesId := "1001" } "main-st").salespeople
        = ["Unassigned"] :=
  c3_amended nullPersonRow _ "main-st" rfl (by decide)

/-- C4: the claim says re-ingesting a sale id with a different date fails
unless an operator override is supplied.  The importer has no collision
check and no override: the run completes and the stored record under id
`1001`, previously dated 2023-01-01, is simply overwritten with the
fresh 2024-01-01 record — identical to importing into an empty store. -/
theorem c4_counterexample :
    lookupTx (importIntoDb [("1001", rec2023)] [row2024]) "1001" =
      some { salesId := "1001", date := "2024-01-01", storeId := "main-st"
             storeName := "Main St", salespeople := ["Unassigned"]
             grandTotal := 0, cost := 0, financeFee := 0, profit := 0 } ∧
    rec2023.date = "2023-01-01" ∧
    lookupTx (importIntoDb [] [row2024]) "1001" =
      lookupTx (importIntoDb [("1001", rec2023)] [row2024]) "1001" := by decide

/-- If the key was present, updating it yields it. -/
lemma lookupTx_map_update_of_any (id : String) (rec : TxRecord) :
    ∀ l : List (String × TxRecord), l.any (fun q => decide (q.1 = id)) = true →
    lookupTx (l.map (fun q => if q.1 = id then (id, rec) else q)) id = some rec := by
  intro l
  induction l with
  | nil => simp
  | cons q t ih =>
    intro hany
    by_cases hq : q.1 = id
    · simp only [List.map_cons, if_pos hq]
      unfold lookupTx
      rw [List.find?_cons_of_pos _ (by simp)]
      rfl
    · simp only [List.any_cons, Bool.or_eq_true, decide_eq_true_eq] at hany
      rcases hany with h | h
      · exact absurd h hq
      · simp only [List.map_cons, if_neg hq]
        unfold lookupTx at ih ⊢
        rw [List.find?_cons_of_neg _ (by simpa using hq)]
        exact ih h

/-- Appending a new binding for an unseen key makes it the looked-up
binding. -/
lemma lookupTx_append_new (id : String) (rec : TxRecord) :
    ∀ l : List (String × TxRecord), l.any (fun q => decide (q.1 = id)) = false →
    lookupTx (l ++ [(id, rec)]) id = some rec := by
  intro l
  induction l with
  | nil => simp [lookupTx]
  | cons q t ih =>
    intro hany
    simp only [List.any_cons, Bool.or_eq_false_iff, decide_eq_false_iff_not] at hany
    unfold lookupTx at ih ⊢
    simp only [List.cons_append]
    rw [List.find?_cons_of_neg _ (by simpa using hany.1)]
    exact ih hany.2

/-- A `setTx` write makes its record the stored record for its doc id,
whatever was there before. -/
lemma lookupTx_applyOp_setTx (db : List (String × TxRecord)) (id : String) (rec : TxRecord) :
    lookupTx (applyOp db (.setTx id rec)) id = some rec := by
  simp only [applyOp]
  rcases hany : db.any (fun q => decide (q.1 = id)) with _ | _
  · rw [if_neg (by simp [hany])]
    exact lookupTx_append_new id rec db hany
  · rw [if_pos (by simp [hany])]
    exact lookupTx_map_update_of_any id rec db hany

/-- C4 (amended): re-ingestion is an unconditional upsert.  For any prior
state of the `sales_transactions` collection, importing a valid row
leaves, under its sanitized id, exactly the freshly built record — the
same record a fresh import would store — regardless of any previously
stored date; no collision check or override exists in the importer. -/
theorem c4_amended (db : List (String × TxRecord)) (r : XlsxRow) (nr : NormRow)
    (h : normalizeRow r = some nr) :
    lookupTx (importIntoDb db [r]) (toSafeDocId nr.salesId) =
      some (mkRecord r nr (slugify nr.storeLocation)) := by
  unfold importIntoDb runImportV1
  simp only [List.foldl_cons, List.foldl_nil]
  unfold processRow
  rw [h]
  simp only []
  split
  · -- the store upsert was queued too: two operations buffered
    rw [if_neg (by show ¬ (initState.batchOps + 1 + 1 ≥ MAX_BATCH_OPS); decide)]
    unfold commitBatch
    rw [if_neg (by show ¬ (initState.batchOps + 1 + 1 = 0); decide)]
    simp only [initState, List.singleton_append, List.cons_append, List.nil_append,
      List.foldl_cons, List.foldl_nil]
    rw [show ∀ x y, applyOp db (WriteOp.setStore x y) = db from fun x y => rfl]
    exact lookupTx_applyOp_setTx db _ _
  · -- only the transaction upsert was queued
    rw [if_neg (by show ¬ (initState.batchOps + 1 ≥ MAX_BATCH_OPS); decide)]
    unfold commitBatch
    rw [if_neg (by show ¬ (initState.batchOps + 1 = 0); decide)]
    simp only [initState, List.singleton_append, List.cons_append, List.nil_append,
      List.foldl_cons, List.foldl_nil]
    exact lookupTx_applyOp_setTx db _ _

/-- C4 witness: importing the 2024-dated row for id `1001` over a store
holding the 2023-dated record yields the fresh record. -/
theorem c4_witness :
    lookupTx (importIntoDb [("1001", rec2023)] [row2024])
        (toSafeDocId ({ dateOfSale := "2024-01-01", storeLocation := "Main St"
                        salesPersonString := "Unassigned", salesId := "1001" } : NormRow).salesId) =
      some (mkRecord row2024
        { dateOfSale := "2024-01-01", storeLocation := "Main St"
          salesPersonString := "Unassigned", salesId := "1001" }
        (slugify "Main St")) :=
  c4_amended [("1001", rec2023)] row2024 _ (by decide)

/-- The `SAFE` CASE is the identity on finite values. -/
lemma safeNum_fin (q : ℚ) : safeNum (some (SqlNum.fin q)) = SqlNum.fin q := by
  simp [safeNum, sqlNeNum, sqlEqNum]

/-- `regexp_split_to_array` always yields at least one piece. -/
lemma splitAndGo_ne_nil : ∀ (fuel : Nat) (acc l : List Char), splitAndGo fuel acc l ≠ [] := by
  intro fuel
  induction fuel with
  | zero => intro acc l; simp [splitAndGo]
  | succ n ih =>
    intro acc l
    cases l with
    | nil => simp [splitAndGo]
    | cons c cs =>
      simp only [splitAndGo]
      cases matchAndSep (c :: cs) with
      | none => exact ih _ _
      | some rest => simp

/-- The `people` array of the view is never empty, so `people_count ≥ 1`. -/
lemma sqlPeople_ne_nil (sp : Option String) : sqlPeople sp ≠ [] :=
  splitAndGo_ne_nil _ _ _

/-- Folding the SQL SUM over `n` copies of a finite value. -/
lemma foldl_sum_replicate (n : Nat) (a y : ℚ) :
    List.foldl (fun acc x =>
      match x with
      | none => acc
      | some v =>
        match acc with
        | none => some v
        | some a2 => some (sqlAdd a2 v)) (some (SqlNum.fin a))
      (List.replicate n (some (SqlNum.fin y)))
      = some (SqlNum.fin (a + n * y)) := by
  induction n generalizing a with
  | zero => simp
  | succ m ih =>
    rw [List.replicate_succ, List.foldl_cons]
    have h2 : (a + y) + (m : ℚ) * y = a + ((m + 1 : Nat) : ℚ) * y := by
      push_cast
      ring
    exact (ih (a + y)).trans (by rw [h2])

/-- SQL SUM of `n ≥ 1` copies of a finite value. -/
lemma sqlSumOpt_replicate (n : Nat) (y : ℚ) (hn : 1 ≤ n) :
    sqlSumOpt (List.replicate n (some (SqlNum.fin y))) = some (SqlNum.fin (n * y)) := by
  obtain ⟨m, rfl⟩ : ∃ m, n = m + 1 := ⟨n - 1, by omega⟩
  unfold sqlSumOpt
  rw [List.replicate_succ, List.foldl_cons]
  have h2 : y + (m : ℚ) * y = ((m + 1 : Nat) : ℚ) * y := by
    push_cast
    ring
  exact (foldl_sum_replicate m y y).trans (by rw [h2])

/-- Summing one split field across the `n` rows of one sale recovers the
original finite value exactly. -/
lemma view_field_sum (x : ℚ) (people : List (List Char)) (hne : people ≠ []) :
    sqlSumOpt (people.map
      (fun _ => sqlDivByCount (SqlNum.fin x) (nullifZero people.length)))
      = some (SqlNum.fin x) := by
  have hn : 1 ≤ people.length := List.length_pos.mpr hne
  have h0 : nullifZero people.length = some people.length := by
    unfold nullifZero
    rw [if_neg (by omega)]
  have hv : sqlDivByCount (SqlNum.fin x) (nullifZero people.length)
      = some (SqlNum.fin (x / (people.length : ℚ))) := by
    rw [h0]
    rfl
  rw [hv, List.map_const', sqlSumOpt_replicate _ _ hn]
  congr 1
  rw [mul_div_cancel₀]
  exact Nat.cast_ne_zero.mpr (by omega)

/-- C1: split conservation.  For a sale whose five financial fields are
finite values, the view produces `n ≥ 1` rows and, for each field, the
exact rational sum of the split column across those rows equals the
original field value. -/
theorem c1_split_conservation (t : PosSale) (qg qp qa qf qb : ℚ)
    (hg : t.grand_total = some (SqlNum.fin qg)) (hp : t.profit = some (SqlNum.fin qp))
    (ha : t.total_finance_amt = some (SqlNum.fin qa))
    (hf : t.finance_fee = some (SqlNum.fin qf))
    (hb : t.finance_balance = some (SqlNum.fin qb)) :
    1 ≤ (posSalesPeople t).length ∧
    sqlSumOpt ((posSalesPeople t).map (fun r => r.grand_total_split))
        = some (SqlNum.fin qg) ∧
    sqlSumOpt ((posSalesPeople t).map (fun r => r.profit_split))
        = some (SqlNum.fin qp) ∧
    sqlSumOpt ((posSalesPeople t).map (fun r => r.total_finance_amt_split))
        = some (SqlNum.fin qa) ∧
    sqlSumOpt ((posSalesPeople t).map (fun r => r.finance_fee_split))
        = some (SqlNum.fin qf) ∧
    sqlSumOpt ((posSalesPeople t).map (fun r => r.finance_balance_split))
        = some (SqlNum.fin qb) := by
  have hne := sqlPeople_ne_nil t.salesperson
  refine ⟨?_, ?_, ?_, ?_, ?_, ?_⟩
  · unfold posSalesPeople
    simpa using List.length_pos.mpr hne
  · unfold posSalesPeople
    simp only [List.map_map, Function.comp_def, hg, safeNum_fin]
    exact view_field_sum qg _ hne
  · unfold posSalesPeople
    simp only [List.map_map, Function.comp_def, hp, safeNum_fin]
    exact view_field_sum qp _ hne
  · unfold posSalesPeople
    simp only [List.map_map, Function.comp_def, ha, safeNum_fin]
    exact view_field_sum qa _ hne
  · unfold posSalesPeople
    simp only [List.map_map, Function.comp_def, hf, safeNum_fin]
    exact view_field_sum qf _ hne
  · unfold posSalesPeople
    simp only [List.map_map, Function.comp_def, hb, safeNum_fin]
    exact view_field_sum qb _ hne

/-- C1 witness: the two-person sale conserves all five fields. -/
theorem c1_witness :
    1 ≤ (posSalesPeople aliceBobSale).length ∧
    sqlSumOpt ((posSalesPeople aliceBobSale).map (fun r => r.grand_total_split))
        = some (SqlNum.fin 100) ∧
    sqlSumOpt ((posSalesPeople aliceBobSale).map (fun r => r.profit_split))
        = some (SqlNum.fin 20) ∧
    sqlSumOpt ((posSalesPeople aliceBobSale).map (fun r => r.total_finance_amt_split))
        = some (SqlNum.fin 40) ∧
    sqlSumOpt ((posSalesPeople aliceBobSale).map (fun r => r.finance_fee_split))
        = some (SqlNum.fin 6) ∧
    sqlSumOpt ((posSalesPeople aliceBobSale).map (fun r => r.finance_balance_split))
        = some (SqlNum.fin 10) :=
  c1_split_conservation aliceBobSale 100 20 40 6 10 rfl rfl rfl rfl rfl

/-- A digit is not JS whitespace. -/
lemma isJsSpace_of_isDigit (c : Char) (h : c.isDigit = true) : isJsSpace c = false := by
  by_contra hc
  rw [Bool.not_eq_false] at hc
  unfold isJsSpace at hc
  simp only [Bool.or_eq_true, decide_eq_true_eq] at hc
  rcases hc with ((((((h1 | h1) | h1) | h1) | h1) | h1) | h1) <;> subst h1 <;>
    exact absurd h (by decide)

/-- A nonempty `String.mk` is not the empty string. -/
lemma strMk_ne_empty (c : Char) (l : List Char) : (⟨c :: l⟩ : String) ≠ "" := by
  intro h
  have h2 := congrArg String.data h
  simp at h2

set_option maxHeartbeats 1000000 in
/-- C10: `ymdFromExcelDate` validates only the shape
`\d{1,2}/\d{1,2}/\d{4}`, never the calendar: any digits in those
positions — month 13, day 45 included — are accepted and reassembled
zero-padded as `YYYY-MM-DD`. -/
theorem c10_no_calendar_validation (mm dd yyyy : List Char)
    (hmm0 : mm ≠ []) (hmm2 : mm.length ≤ 2) (hmmd : ∀ c ∈ mm, c.isDigit = true)
    (hdd0 : dd ≠ []) (hdd2 : dd.length ≤ 2) (hddd : ∀ c ∈ dd, c.isDigit = true)
    (hyy : yyyy.length = 4) (hyyd : ∀ c ∈ yyyy, c.isDigit = true) :
    ymdFromExcelDate (.str ⟨mm ++ '/' :: dd ++ '/' :: yyyy⟩)
      = some ⟨yyyy ++ '-' :: padStart2 mm ++ '-' :: padStart2 dd⟩ := by
  rcases yyyy with _ | ⟨y1, _ | ⟨y2, _ | ⟨y3, _ | ⟨y4, yt⟩⟩⟩⟩ <;>
    simp only [List.length_cons, List.length_nil] at hyy <;> try omega
  obtain rfl : yt = [] := List.length_eq_zero.mp (by omega)
  have hy1 := hyyd y1 (by simp)
  have hy2 := hyyd y2 (by simp)
  have hy3 := hyyd y3 (by simp)
  have hy4 := hyyd y4 (by simp)
  have hsy4 := isJsSpace_of_isDigit _ hy4
  have hslash : Char.isDigit '/' = false := by decide
  rcases mm with _ | ⟨m1, mt⟩
  · exact absurd rfl hmm0
  rcases dd with _ | ⟨d1, dt⟩
  · exact absurd rfl hdd0
  have hm1 := hmmd m1 (by simp)
  have hd1 := hddd d1 (by simp)
  have hsm1 := isJsSpace_of_isDigit _ hm1
  rcases mt with _ | ⟨m2, mt2⟩
  · rcases dt with _ | ⟨d2, dt2⟩
    · simp [ymdFromExcelDate, cellFalsy, cellToString, jsTrim, trimList,
        matchMMDDYYYY, padStart2, strMk_ne_empty, List.takeWhile_cons,
        List.dropWhile_cons, hm1, hd1, hy1, hy2, hy3, hy4, hsm1, hsy4, hslash]
    · obtain rfl : dt2 = [] := by
        simp only [List.length_cons] at hdd2
        exact List.length_eq_zero.mp (by omega)
      have hd2 := hddd d2 (by simp)
      simp [ymdFromExcelDate, cellFalsy, cellToString, jsTrim, trimList,
        matchMMDDYYYY, padStart2, strMk_ne_empty, List.takeWhile_cons,
        List.dropWhile_cons, hm1, hd1, hd2, hy1, hy2, hy3, hy4, hsm1, hsy4, hslash]
  · obtain rfl : mt2 = [] := by
      simp only [List.length_cons] at hmm2
      exact List.length_eq_zero.mp (by omega)
    have hm2 := hmmd m2 (by simp)
    rcases dt with _ | ⟨d2, dt2⟩
    · simp [ymdFromExcelDate, cellFalsy, cellToString, jsTrim, trimList,
        matchMMDDYYYY, padStart2, strMk_ne_empty, List.takeWhile_cons,
        List.dropWhile_cons, hm1, hm2, hd1, hy1, hy2, hy3, hy4, hsm1, hsy4, hslash]
    · obtain rfl : dt2 = [] := by
        simp only [List.length_cons] at hdd2
        exact List.length_eq_zero.mp (by omega)
      have hd2 := hddd d2 (by simp)
      simp [ymdFromExcelDate, cellFalsy, cellToString, jsTrim, trimList,
        matchMMDDYYYY, padStart2, strMk_ne_empty, List.takeWhile_cons,
        List.dropWhile_cons, hm1, hm2, hd1, hd2, hy1, hy2, hy3, hy4, hsm1, hsy4, hslash]

/-- C10 witness: `13/45/2024` — month 13, day 45 — is accepted and
stored as `2024-13-45`. -/
theorem c10_witness :
    ymdFromExcelDate (.str ⟨['1', '3'] ++ '/' :: ['4', '5'] ++ '/' :: ['2', '0', '2', '4']⟩)
        = some ⟨['2', '0', '2', '4'] ++ '-' :: padStart2 ['1', '3'] ++ '-' :: padStart2 ['4', '5']⟩ ∧
    (⟨['1', '3'] ++ '/' :: ['4', '5'] ++ '/' :: ['2', '0', '2', '4']⟩ : String) = "13/45/2024" ∧
    (⟨['2', '0', '2', '4'] ++ '-' :: padStart2 ['1', '3'] ++ '-' :: padStart2 ['4', '5']⟩ : String)
        = "2024-13-45" ∧ 12 < 13 ∧ 31 < 45 :=
  ⟨c10_no_calendar_validation ['1', '3'] ['4', '5'] ['2', '0', '2', '4']
      (by decide) (by decide) (by decide) (by decide) (by decide) (by decide)
      (by decide) (by decide),
   by decide, by decide, by decide, by decide⟩

/-- `<=` on finite `NUMERIC` values is the rational order. -/
lemma sqlLeNum_fin_iff (a b : ℚ) : sqlLeNum (.fin a) (.fin b) = true ↔ a ≤ b := by
  simp only [sqlLeNum, sqlLtNum, sqlEqNum, Bool.or_eq_true, decide_eq_true_eq, beq_iff_eq]
  exact le_iff_lt_or_eq.symm

/-- The PostgreSQL `NUMERIC` order is total. -/
lemma sqlLeNum_total (a b : SqlNum) : sqlLeNum a b = true ∨ sqlLeNum b a = true := by
  cases a with
  | nan =>
    cases b with
    | nan => left; rfl
    | fin q => right; rfl
  | fin q1 =>
    cases b with
    | nan => left; rfl
    | fin q2 =>
      rcases le_total q1 q2 with h | h
      · exact Or.inl ((sqlLeNum_fin_iff _ _).mpr h)
      · exact Or.inr ((sqlLeNum_fin_iff _ _).mpr h)

/-- The PostgreSQL `NUMERIC` order is transitive. -/
lemma sqlLeNum_trans (a b c : SqlNum) (h1 : sqlLeNum a b = true)
    (h2 : sqlLeNum b c = true) : sqlLeNum a c = true := by
  cases a with
  | nan =>
    cases b with
    | nan => exact h2
    | fin q => simp [sqlLeNum, sqlLtNum, sqlEqNum] at h1
  | fin q1 =>
    cases b with
    | nan =>
      cases c with
      | nan => rfl
      | fin q3 => simp [sqlLeNum, sqlLtNum, sqlEqNum] at h2
    | fin q2 =>
      cases c with
      | nan => rfl
      | fin q3 =>
        rw [sqlLeNum_fin_iff] at h1 h2 ⊢
        exact h1.trans h2

/-- C7: the outlier endpoint refuses to flag below a sample of 20 — an
empty in-range set aside, fewer than 20 in-range rows yield an empty
page, a null threshold and a zero count; with at least 20 rows the page
is the flagged rows (those exceeding `Q3 + multiplier·IQR`), the
reported total is the full flagged count, the page is capped at the
effective limit and sorted descending by `grand_total`. -/
theorem c7_outlier_min_sample (tbl : List PosSale) (start end_ : Nat)
    (limitParam : Option Nat) (filt : Option String) (mult : ℚ)
    (hlim : 1 ≤ limitParam.getD 25) :
    ((outlierS tbl start end_ filt).length < 20 →
      (outliersQuery tbl start end_ limitParam filt mult).rows = [] ∧
      (outliersQuery tbl start end_ limitParam filt mult).threshold_high = none ∧
      (outliersQuery tbl start end_ limitParam filt mult).total_count = 0) ∧
    (20 ≤ (outlierS tbl start end_ filt).length →
      (outliersQuery tbl start end_ limitParam filt mult).total_count =
        ((outlierS tbl start end_ filt).filter
          (fun r => sqlGtOpt r.grand_total
            (outlierHi (outlierS tbl start end_ filt) mult))).length ∧
      (outliersQuery tbl start end_ limitParam filt mult).rows.length
        ≤ min (limitParam.getD 25) 200 ∧
      (∀ r ∈ (outliersQuery tbl start end_ limitParam filt mult).rows,
        sqlGtOpt r.grand_total (outlierHi (outlierS tbl start end_ filt) mult) = true ∧
        r ∈ outlierS tbl start end_ filt) ∧
      (outliersQuery tbl start end_ limitParam filt mult).rows.Pairwise
        (fun a b => sqlLeNum b.grand_total a.grand_total = true)) := by
  have hrows : (outliersQuery tbl start end_ limitParam filt mult).rows
      = (List.insertionSort (fun a b : SRow => sqlLeNum b.grand_total a.grand_total = true)
          (outlierFlagged (outlierS tbl start end_ filt) mult)).take
            (min (limitParam.getD 25) 200) := rfl
  have hthr : (outliersQuery tbl start end_ limitParam filt mult).threshold_high
      = (if (List.insertionSort (fun a b : SRow => sqlLeNum b.grand_total a.grand_total = true)
              (outlierFlagged (outlierS tbl start end_ filt) mult)).take
                (min (limitParam.getD 25) 200) = [] then none
         else outlierHi (outlierS tbl start end_ filt) mult) := rfl
  have htot : (outliersQuery tbl start end_ limitParam filt mult).total_count
      = (if (List.insertionSort (fun a b : SRow => sqlLeNum b.grand_total a.grand_total = true)
              (outlierFlagged (outlierS tbl start end_ filt) mult)).take
                (min (limitParam.getD 25) 200) = [] then 0
         else (outlierFlagged (outlierS tbl start end_ filt) mult).length) := rfl
  constructor
  · intro hn
    have hflag : outlierFlagged (outlierS tbl start end_ filt) mult = [] := by
      unfold outlierFlagged
      have hd : (decide (20 ≤ (outlierS tbl start end_ filt).length)) = false := by
        simp only [decide_eq_false_iff_not, not_le]
        exact hn
      simp [hd]
    rw [hflag] at hrows hthr htot
    simp only [List.insertionSort, List.take_nil] at hrows hthr htot
    exact ⟨hrows, by rw [hthr]; rfl, by rw [htot]; rfl⟩
  · intro hn
    have hflag : outlierFlagged (outlierS tbl start end_ filt) mult
        = (outlierS tbl start end_ filt).filter
            (fun r => sqlGtOpt r.grand_total (outlierHi (outlierS tbl start end_ filt) mult)) := by
      unfold outlierFlagged
      simp only [decide_eq_true hn, Bool.true_and]
    have hmin1 : 1 ≤ min (limitParam.getD 25) 200 := le_min hlim (by omega)
    refine ⟨?_, ?_, ?_, ?_⟩
    · rw [htot, hflag]
      by_cases hfe : (outlierS tbl start end_ filt).filter
          (fun r => sqlGtOpt r.grand_total (outlierHi (outlierS tbl start end_ filt) mult)) = []
      · rw [hfe]
        simp [List.insertionSort]
      · rw [if_neg ?_]
        intro h0
        apply hfe
        rcases List.take_eq_nil_iff.mp h0 with h | h
        · omega
        · have hlen := (List.perm_insertionSort
            (fun a b : SRow => sqlLeNum b.grand_total a.grand_total = true)
            ((outlierS tbl start end_ filt).filter
              (fun r => sqlGtOpt r.grand_total
                (outlierHi (outlierS tbl start end_ filt) mult)))).length_eq
          rw [h] at hlen
          exact List.length_eq_zero.mp hlen.symm
    · rw [hrows]
      exact le_trans (List.length_take_le _ _) (le_refl _)
    · intro r hr
      rw [hrows] at hr
      have h1 := List.take_subset _ _ hr
      have h2 := (List.perm_insertionSort
        (fun a b : SRow => sqlLeNum b.grand_total a.grand_total = true) _).mem_iff.mp h1
      rw [hflag] at h2
      obtain ⟨hm, hp⟩ := List.mem_filter.mp h2
      exact ⟨hp, hm⟩
    · rw [hrows]
      apply List.Pairwise.sublist (List.take_sublist _ _)
      exact @List.sorted_insertionSort SRow
        (fun a b => sqlLeNum b.grand_total a.grand_total = true)
        (fun a b => instDecidableEqBool _ _)
        ⟨fun a b => (sqlLeNum_total b.grand_total a.grand_total)⟩
        ⟨fun a b c hab hbc => sqlLeNum_trans _ _ _ hbc hab⟩
        _

/-- C7 witness: three in-range transactions, one extreme — the flagged
set is empty, the threshold null, the count zero. -/
theorem c7_witness :
    (outliersQuery sparseTbl 0 100 none none (3/2)).rows = [] ∧
    (outliersQuery sparseTbl 0 100 none none (3/2)).threshold_high = none ∧
    (outliersQuery sparseTbl 0 100 none none (3/2)).total_count = 0 :=
  (c7_outlier_min_sample sparseTbl 0 100 none none (3/2) (by decide)).1 (by decide)

/-- C8: the claim says `margin_pct = profit / grand_total * 100` and that
a row with `grand_total = 0` is excluded from the ranking.  The CASE
prefers the stored `gross_margin` column whenever it is non-null: a sale
with `grand_total = 0` but `gross_margin = 50` gets `margin_pct = 50`
and is ranked. -/
theorem c8_counterexample :
    zeroTotalSale.grand_total = some (SqlNum.fin 0) ∧
    ((lowMarginQuery [zeroTotalSale] 0 10 none none none).rows.map
        (fun r => r.sale_id)) = ["S0"] ∧
    ((lowMarginQuery [zeroTotalSale] 0 10 none none none).rows.map
        (fun r => r.margin_pct)) = [some (SqlNum.fin 50)] ∧
    (lowMarginQuery [zeroTotalSale] 0 10 none none none).total_count = 1 := by decide

/-- `NUMERIC` equality is reflexive — NaN included (PostgreSQL treats
NaN as equal to NaN). -/
lemma sqlEqNum_refl (g : SqlNum) : sqlEqNum g g = true := by
  cases g <;> simp [sqlEqNum]

/-- A numbered row comes from the underlying list. -/
lemma numberFrom_mem (rr : LMRow × Nat) :
    ∀ (k : Nat) (l : List LMRow), rr ∈ numberFrom k l → rr.1 ∈ l := by
  intro k l
  induction l generalizing k with
  | nil => simp [numberFrom]
  | cons r rs ih =>
    intro h
    simp only [numberFrom, List.mem_cons] at h
    rcases h with h | h
    · rw [h]
      exact List.mem_cons_self _ _
    · exact List.mem_cons_of_mem _ (ih _ h)

/-- Every ranked row passed the `BETWEEN -100 AND 100` filter. -/
lemma rankedRows_between (s : List LMRow) (rr : LMRow × Nat)
    (h : rr ∈ rankedRows s) : betweenFilter rr.1.margin_pct = true := by
  unfold rankedRows at h
  rw [List.mem_flatMap] at h
  obtain ⟨sp, _, hmem⟩ := h
  have h1 := numberFrom_mem _ _ _ hmem
  have h2 := (List.perm_insertionSort _ _).mem_iff.mp h1
  have h3 := (List.mem_filter.mp h2).1
  exact (List.mem_filter.mp h3).2

/-- What passes `BETWEEN -100 AND 100` is a finite value in that range
(NaN sorts above 100 and is rejected). -/
lemma betweenFilter_fin (x : Option SqlNum) (h : betweenFilter x = true) :
    ∃ q : ℚ, x = some (SqlNum.fin q) ∧ -100 ≤ q ∧ q ≤ 100 := by
  cases x with
  | none => simp [betweenFilter] at h
  | some m =>
    cases m with
    | nan => simp [betweenFilter, sqlLeNum, sqlLtNum, sqlEqNum] at h
    | fin q =>
      unfold betweenFilter at h
      rw [Bool.and_eq_true] at h
      obtain ⟨h1, h2⟩ := h
      rw [sqlLeNum_fin_iff] at h1 h2
      exact ⟨q, rfl, h1, h2⟩

/-- Every row the low-margin endpoint returns has a finite margin within
the bounds. -/
lemma lowMargin_rows_margin (tbl : List PosSale) (start end_ : Nat)
    (filt : Option String) (lp lt : Option Nat) (r : LMRow)
    (h : r ∈ (lowMarginQuery tbl start end_ filt lp lt).rows) :
    ∃ q : ℚ, r.margin_pct = some (SqlNum.fin q) ∧ -100 ≤ q ∧ q ≤ 100 := by
  have hrows : (lowMarginQuery tbl start end_ filt lp lt).rows
      = ((List.insertionSort (fun a b : LMRow × Nat => finalOrderLe a.1 b.1 = true)
          ((rankedRows (lowMarginS tbl start end_ filt)).filter
            (fun rr => decide (rr.2 ≤ min (lp.getD 5) 50)))).take
              (min (lt.getD 200) 2000)).map (fun rr => rr.1) := rfl
  rw [hrows] at h
  obtain ⟨rr, hrr, rfl⟩ := List.mem_map.mp h
  have h1 := List.take_subset _ _ hrr
  have h2 := (List.perm_insertionSort _ _).mem_iff.mp h1
  have h3 := (List.mem_filter.mp h2).1
  exact betweenFilter_fin _ (rankedRows_between _ _ h3)

/-- C8 (amended): `margin_pct` is the stored `gross_margin` whenever that
is non-null (NaN included — PostgreSQL `NUMERIC` NaN equals itself);
otherwise it is null when the split grand total is null or zero, and the
NaN-coerced split profit over the split grand total times 100 otherwise
— the division is only reached under the non-zero guard, so no
division-by-zero fault can occur.  Every returned row has a finite
margin within `[-100, 100]`; null and out-of-range margins (a NaN margin
included) are discarded. -/
theorem c8_amended :
    (∀ gm gts ps, marginPctExpr gm gts ps = marginPctSpec gm gts ps) ∧
    (∀ (tbl : List PosSale) (start end_ : Nat) (filt : Option String)
        (lp lt : Option Nat) (i : Nat)
        (h : i < (lowMarginQuery tbl start end_ filt lp lt).rows.length),
      ∃ q : ℚ, ((lowMarginQuery tbl start end_ filt lp lt).rows.get ⟨i, h⟩).margin_pct
          = some (SqlNum.fin q) ∧ -100 ≤ q ∧ q ≤ 100) := by
  constructor
  · intro gm gts ps
    cases gm with
    | some g =>
      unfold marginPctExpr marginPctSpec
      rw [if_pos (sqlEqNum_refl g)]
    | none =>
      cases gts with
      | none => rfl
      | some g =>
        cases g with
        | nan => rfl
        | fin q =>
          by_cases hq : q = 0
          · subst hq
            rfl
          · have hq2 : (q == (0 : ℚ)) = false := beq_eq_false_iff_ne.mpr hq
            unfold marginPctExpr marginPctSpec
            simp [sqlEqNum, sqlNeNum, hq2, hq]
  · intro tbl start end_ filt lp lt i h
    exact lowMargin_rows_margin tbl start end_ filt lp lt _ (List.get_mem _ _ _)

/-- C8 witness: the zero-grand-total sale with a stored gross margin
yields a returned row whose margin is finite and within bounds. -/
theorem c8_witness :
    ∃ q : ℚ, ((lowMarginQuery [zeroTotalSale] 0 10 none none none).rows.get
        ⟨0, by decide⟩).margin_pct = some (SqlNum.fin q) ∧ -100 ≤ q ∧ q ≤ 100 :=
  c8_amended.2 [zeroTotalSale] 0 10 none none none 0 (by decide)
